import Mathlib

/-!
Shallow embedding of the detection service (app/models.py, app/services.py,
app/routers/detection.py, app/main.py) and proofs of its specified
properties.

Topic names are modelled as `String` (the Python `TopicName` literal type is
a string at runtime).  The remote chat-completion interaction of
`DetectionService._call_llm` is modelled by an oracle value `LLMOutcome`
describing what the remote call produced: an exception, a missing/empty
reply, or a textual reply represented by the result of `json.loads` on it
(`none` when the text is not valid JSON, `some v` with `v` the parsed JSON
value otherwise).
-/

namespace DetectionSvc

/-- JSON values as produced by Python `json.loads`: null, booleans, numbers,
strings, arrays, and objects (ordered key/value pairs, later duplicate keys
overriding earlier ones as in Python dict construction). -/
inductive Json where
  | null : Json
  | bool (b : Bool) : Json
  | num (n : Int) : Json
  | str (s : String) : Json
  | arr (xs : List Json) : Json
  | obj (kvs : List (String × Json)) : Json

/-- `DetectionSettings` from app/models.py: one boolean flag per topic,
all defaulting to true. -/
structure DetectionSettings where
  health : Bool := true
  finance : Bool := true
  legal : Bool := true
  hr : Bool := true
deriving DecidableEq

/-- `DetectionSettings.enabled_topics` from app/models.py: the enabled
topics in the fixed order health, finance, legal, hr. -/
def DetectionSettings.enabled_topics (s : DetectionSettings) : List String :=
  (if s.health then ["health"] else []) ++
  (if s.finance then ["finance"] else []) ++
  (if s.legal then ["legal"] else []) ++
  (if s.hr then ["hr"] else [])

/-- `DetectionRequest` from app/models.py. -/
structure DetectionRequest where
  prompt : String
  settings : DetectionSettings := {}
deriving DecidableEq

/-- Outcome of the remote chat-completion call inside
`DetectionService._call_llm`: `failure` is any exception raised by
`chat.completions.create`; `noContent` is a completion with no choices or a
missing/empty message content; `content parsed` is a textual reply whose
`json.loads` result is `parsed` (`none` when parsing raises
`JSONDecodeError`). -/
inductive LLMOutcome where
  | failure : LLMOutcome
  | noContent : LLMOutcome
  | content (parsed : Option Json) : LLMOutcome

/-- Python `payload.get("detected_topics", [])` on the parsed JSON value:
defined (with default `[]`) when the payload is a dict, raising
`AttributeError` (modelled by `none`) on any other value.  Duplicate keys
keep the last binding, as `json.loads` builds the dict left to right. -/
def pyGetDetectedTopics : Json → Option Json
  | Json.obj kvs =>
      some ((kvs.foldl
        (fun acc kv => if kv.1 = "detected_topics" then some kv.2 else acc)
        none).getD (Json.arr []))
  | _ => none

/-- Python iteration over the `detected_topics` value: a list yields its
elements, a dict yields its keys (as strings), a string yields its
characters as one-character strings, and any other value raises
`TypeError` (modelled by `none`). -/
def pyIter : Json → Option (List Json)
  | Json.arr xs => some xs
  | Json.obj kvs => some (kvs.map (fun kv => Json.str kv.1))
  | Json.str s => some (s.toList.map (fun c => Json.str (String.mk [c])))
  | _ => none

/-- The list comprehension in `_call_llm`:
`[topic for topic in topics if topic in enabled_topics]`.  A Python value
can equal a member of `enabled_topics` (a list of strings) only when it is
itself that string. -/
def filterTopics (items : List Json) (enabled : List String) : List String :=
  items.filterMap (fun j =>
    match j with
    | Json.str s => if s ∈ enabled then some s else none
    | _ => none)

/-- The parse-and-filter step of `_call_llm` (services.py lines 159-167)
applied to the `json.loads` result of the reply text: any
`JSONDecodeError`, `AttributeError` or `TypeError` is caught and yields
`[]`. -/
def parseReply (parsed : Option Json) (enabled : List String) : List String :=
  match parsed with
  | none => []
  | some payload =>
      match pyGetDetectedTopics payload with
      | none => []
      | some field =>
          match pyIter field with
          | none => []
          | some items => filterTopics items enabled

/-- `DetectionService._call_llm` (services.py lines 110-167) as a function
of the remote-call outcome: an exception from the remote call returns `[]`
(lines 149-151), an absent/empty reply returns `[]` (lines 153-157), and a
textual reply goes through JSON parsing and enabled-set filtering
(lines 159-167). -/
def callLLM (oracle : LLMOutcome) (enabled : List String) : List String :=
  match oracle with
  | LLMOutcome.failure => []
  | LLMOutcome.noContent => []
  | LLMOutcome.content parsed => parseReply parsed enabled

/-- The default `_keyword_hints` table built in `DetectionService.__init__`
(services.py lines 85-90), looked up with `.get(topic, ())`. -/
def keywordHints : String → List String
  | "health" => ["health", "medical", "doctor", "disease", "therapy"]
  | "finance" => ["bank", "invest", "loan", "budget", "portfolio"]
  | "legal" => ["law", "contract", "regulation", "court", "compliance"]
  | "hr" => ["hire", "payroll", "employee", "termination", "recruit"]
  | _ => []

/-- Python substring test `needle in hay` on character lists. -/
def subList (needle : List Char) : List Char → Bool
  | [] => needle.isEmpty
  | c :: cs => needle.isPrefixOf (c :: cs) || subList needle cs

/-- Python `needle in hay` for strings. -/
def strContains (hay needle : String) : Bool :=
  subList needle.toList hay.toList

/-- The loop body of `DetectionService._keyword_match` (services.py lines
175-180): iterate the given topics, append a topic when one of its hints
occurs in the lowered prompt, and break after the first append when
`fast_mode` is set. -/
def keywordMatchGo (lowered : String) (fast : Bool) : List String → List String
  | [] => []
  | t :: ts =>
      if (keywordHints t).any (fun k => strContains lowered k) then
        if fast then [t] else t :: keywordMatchGo lowered fast ts
      else keywordMatchGo lowered fast ts

/-- `DetectionService._keyword_match` (services.py lines 169-181): lower the
prompt once, then scan the enabled topics. -/
def keywordMatch (prompt : String) (enabled : List String) (fast : Bool) :
    List String :=
  keywordMatchGo prompt.toLower fast enabled

/-- Result of one `DetectionService.detect` call together with which
internal paths ran, for stating the call-structure claims. -/
structure DetectOut where
  result : List String
  llmCalled : Bool
  kwCalled : Bool

/-- `DetectionService.detect` (services.py lines 92-108), instrumented with
which of `_call_llm` and `_keyword_match` were invoked: an empty enabled
set short-circuits to `[]`; a non-empty classifier result is returned,
truncated to its first element in fast mode; an empty classifier result
falls back to the keyword matcher, returned as-is. -/
def detectTrace (oracle : LLMOutcome) (request : DetectionRequest)
    (fast : Bool) : DetectOut :=
  let enabled := request.settings.enabled_topics
  if enabled.isEmpty then
    ⟨[], false, false⟩
  else
    let llm := callLLM oracle enabled
    if llm.isEmpty then
      ⟨keywordMatch request.prompt enabled fast, true, true⟩
    else
      ⟨if fast then llm.take 1 else llm, true, false⟩

/-- `DetectionService.detect`: the returned topic list. -/
def detect (oracle : LLMOutcome) (request : DetectionRequest)
    (fast : Bool) : List String :=
  (detectTrace oracle request fast).result

/-- `AuditLogEntry` from app/models.py, with the timezone-aware timestamp
modelled as a natural number. -/
structure AuditLogEntry where
  timestamp : Nat
  route : String
  prompt : String
  detected_topics : List String
deriving DecidableEq

/-- Modelled from the spec: the class `AuditLogStore`, instantiated in
app/main.py as `AuditLogStore(max_entries=...)` and used by
app/routers/detection.py, has no definition anywhere under src/.  The spec
describes it as a bounded in-memory store with ring-buffer / bounded-deque
semantics whose `list()` returns all retained entries most-recent first;
`entries` holds the retained entries most-recent first. -/
structure AuditLogStore where
  max_entries : Nat
  entries : List AuditLogEntry
deriving DecidableEq

/-- Modelled from the spec: `AuditLogStore.append` inserts at the
most-recent end and, once at capacity, evicts the oldest entry. -/
def AuditLogStore.append (store : AuditLogStore) (e : AuditLogEntry) :
    AuditLogStore :=
  ⟨store.max_entries, (e :: store.entries).take store.max_entries⟩

/-- Modelled from the spec: `AuditLogStore.list` returns all retained
entries, most-recent first. -/
def AuditLogStore.listEntries (store : AuditLogStore) : List AuditLogEntry :=
  store.entries

/-- Append a sequence of entries in order (first element appended first). -/
def AuditLogStore.appendAll (store : AuditLogStore)
    (es : List AuditLogEntry) : AuditLogStore :=
  es.foldl AuditLogStore.append store

/-- The `POST /detect` handler of app/routers/detection.py (lines 24-38):
run non-fast detection, append an audit entry whose `detected_topics` is
the detection result, and return that result.  `now` stands for
`datetime.now(timezone.utc)` at the append site. -/
def handleDetect (oracle : LLMOutcome) (payload : DetectionRequest)
    (store : AuditLogStore) (now : Nat) : AuditLogStore × List String :=
  let topics := detect oracle payload false
  (store.append ⟨now, "detect", payload.prompt, topics⟩, topics)

/-- One row of the `audit_logs` table from app/database.py; the UUID id and
the timezone-aware timestamp are modelled as natural numbers. -/
structure DbRow where
  id : Nat
  timestamp : Nat
  route : String
  prompt : String
  detected_topics : List String
deriving DecidableEq

/-- The `AuditLogEntry` built from a selected row in
`AuditLogRepository.list` and `AuditLogRepository.record`. -/
def DbRow.toEntry (r : DbRow) : AuditLogEntry :=
  ⟨r.timestamp, r.route, r.prompt, r.detected_topics⟩

/-- Stable insertion of a row into a list sorted by descending timestamp:
the row goes after every earlier row with a timestamp at least as large. -/
def insertDesc (r : DbRow) : List DbRow → List DbRow
  | [] => [r]
  | x :: xs =>
      if r.timestamp ≤ x.timestamp then x :: insertDesc r xs
      else r :: x :: xs

/-- `ORDER BY timestamp DESC` of the select in `AuditLogRepository.list`,
modelled as a stable insertion sort by descending timestamp. -/
def sortDesc (rows : List DbRow) : List DbRow :=
  rows.foldr insertDesc []

namespace AuditLogRepository

/-- `AuditLogRepository.record` (services.py lines 28-51): insert one row
with the given route, prompt and topics plus a server-assigned id and
timestamp, and return the entry built from the inserted row.  The database
table is modelled as the list of its rows in insertion order; `now` and
`rowId` stand for `datetime.now(timezone.utc)` and `uuid4()`. -/
def record (db : List DbRow) (now rowId : Nat) (route prompt : String)
    (topics : List String) : List DbRow × AuditLogEntry :=
  let row : DbRow := ⟨rowId, now, route, prompt, topics⟩
  (db ++ [row], row.toEntry)

/-- `AuditLogRepository.list` (services.py lines 53-67): select all rows
ordered by timestamp descending, apply `.limit(limit)` only when `limit`
is truthy (that is, present and non-zero), and build an entry from each
row. -/
def listLogs (db : List DbRow) (limit : Option Nat) : List AuditLogEntry :=
  let sorted := sortDesc db
  let capped :=
    match limit with
    | some k => if k ≠ 0 then sorted.take k else sorted
    | none => sorted
  capped.map DbRow.toEntry

end AuditLogRepository

/-- The fixed catalog order of topics: the order in which
`DetectionSettings.enabled_topics` emits them (app/models.py lines 21-31),
matching the keys of the default hint table. -/
def catalogTopics : List String := ["health", "finance", "legal", "hr"]

/-- Scan step of the reference algorithm described in the spec for the
keyword fallback matcher: test each topic's hint substrings against the
lowered prompt, append on a hit, stop at the first hit when fast. -/
def specMatchGo (lowered : String) (fast : Bool) : List String → List String
  | [] => []
  | t :: ts =>
      if (keywordHints t).any (fun k => strContains lowered k) then
        if fast then [t] else t :: specMatchGo lowered fast ts
      else specMatchGo lowered fast ts

/-- The reference algorithm stated by the spec for the keyword fallback
matcher: lower-case the prompt once, iterate the enabled topics in the
fixed catalog order health, finance, legal, hr, append a topic exactly when
some hint substring for it occurs in the lowered prompt, and stop at the
first appended topic when fast is true. -/
def specMatch (prompt : String) (enabled : List String) (fast : Bool) :
    List String :=
  specMatchGo prompt.toLower fast
    (catalogTopics.filter (fun t => decide (t ∈ enabled)))

/-- The replies the spec calls malformed, as seen after `json.loads`: the
text is not valid JSON (`none`), the parsed value is not a dict (so `.get`
raises `AttributeError`), the dict lacks a `detected_topics` key, or that
key holds a number, boolean or null (the non-iterable values).  Lists,
dicts and strings under the key are excluded: the code iterates them. -/
def malformedReply : Option Json → Bool
  | none => true
  | some (Json.obj kvs) =>
      match kvs.foldl
        (fun acc kv => if kv.1 = "detected_topics" then some kv.2 else acc)
        none with
      | none => true
      | some (Json.arr _) => false
      | some (Json.obj _) => false
      | some (Json.str _) => false
      | some _ => true
  | some _ => true

/-! ### Helper lemmas -/

theorem filterTopics_subset {items : List Json} {enabled : List String}
    {t : String} (h : t ∈ filterTopics items enabled) : t ∈ enabled := by
  simp only [filterTopics, List.mem_filterMap] at h
  obtain ⟨j, -, hj⟩ := h
  split at hj
  · split at hj
    next hs =>
      injection hj with hj
      exact hj ▸ hs
    next => exact Option.noConfusion hj
  · exact Option.noConfusion hj

theorem parseReply_subset {parsed : Option Json} {enabled : List String}
    {t : String} (h : t ∈ parseReply parsed enabled) : t ∈ enabled := by
  unfold parseReply at h
  split at h
  · cases h
  · split at h
    · cases h
    · split at h
      · cases h
      · exact filterTopics_subset h

theorem callLLM_subset {oracle : LLMOutcome} {enabled : List String}
    {t : String} (h : t ∈ callLLM oracle enabled) : t ∈ enabled := by
  cases oracle with
  | failure => cases h
  | noContent => cases h
  | content parsed => exact parseReply_subset h

theorem keywordMatchGo_subset {lowered : String} {fast : Bool}
    {l : List String} {t : String} (h : t ∈ keywordMatchGo lowered fast l) :
    t ∈ l := by
  induction l with
  | nil => cases h
  | cons x xs ih =>
      unfold keywordMatchGo at h
      split at h
      · split at h
        · simp only [List.mem_singleton] at h
          exact h ▸ List.mem_cons_self x xs
        · rcases List.mem_cons.mp h with h | h
          · exact h ▸ List.mem_cons_self x xs
          · exact List.mem_cons_of_mem x (ih h)
      · exact List.mem_cons_of_mem x (ih h)

theorem keywordMatch_subset {prompt : String} {enabled : List String}
    {fast : Bool} {t : String} (h : t ∈ keywordMatch prompt enabled fast) :
    t ∈ enabled :=
  keywordMatchGo_subset h

theorem keywordMatchGo_fast_length (lowered : String) (l : List String) :
    (keywordMatchGo lowered true l).length ≤ 1 := by
  induction l with
  | nil => simp [keywordMatchGo]
  | cons x xs ih =>
      unfold keywordMatchGo
      split
      · simp
      · exact ih

/-! ### Claim theorems -/

/-- C1: every element of the list returned by `DetectionService.detect` is
a member of the enabled topic set derived from the request settings, in
fast and normal mode, whatever the remote classifier returned. -/
theorem detect_subset_enabled (oracle : LLMOutcome)
    (request : DetectionRequest) (fast : Bool) (t : String)
    (h : t ∈ detect oracle request fast) :
    t ∈ request.settings.enabled_topics := by
  simp only [detect, detectTrace] at h
  by_cases he : request.settings.enabled_topics.isEmpty
  · simp [he] at h
  · simp only [he, if_neg, Bool.false_eq_true, not_false_eq_true] at h
    by_cases hl : (callLLM oracle request.settings.enabled_topics).isEmpty
    · simp only [hl, if_pos] at h
      exact keywordMatch_subset h
    · simp only [hl, if_neg, Bool.false_eq_true, not_false_eq_true] at h
      cases fast with
      | false => exact callLLM_subset (by simpa using h)
      | true =>
          have := List.take_subset 1
            (callLLM oracle request.settings.enabled_topics)
          exact callLLM_subset (this (by simpa using h))

/-- Concrete instance of the C1 theorem: with all topics enabled and the
classifier replying `["legal"]`, the returned topic `legal` is enabled. -/
theorem detect_subset_enabled_witness :
    ("legal" ∈ detect
      (LLMOutcome.content (some (Json.obj
        [("detected_topics", Json.arr [Json.str "legal"])])))
      ⟨"any prompt", {}⟩ false) ∧
    "legal" ∈ DetectionSettings.enabled_topics {} :=
  ⟨by decide, detect_subset_enabled
    (LLMOutcome.content (some (Json.obj
      [("detected_topics", Json.arr [Json.str "legal"])])))
    ⟨"any prompt", {}⟩ false "legal" (by decide)⟩

/-- C2: in fast mode, `DetectionService.detect` returns a list of length at
most 1, on the classifier path (truncated to its first element) as well as
on the keyword fallback path (which stops at its first match). -/
theorem detect_fast_mode_length_le_one (oracle : LLMOutcome)
    (request : DetectionRequest) :
    (detect oracle request true).length ≤ 1 := by
  simp only [detect, detectTrace]
  by_cases he : request.settings.enabled_topics.isEmpty
  · simp [he]
  · simp only [he, if_neg, Bool.false_eq_true, not_false_eq_true]
    by_cases hl : (callLLM oracle request.settings.enabled_topics).isEmpty
    · simpa [hl] using keywordMatchGo_fast_length request.prompt.toLower
        request.settings.enabled_topics
    · simp only [hl, if_neg, Bool.false_eq_true, not_false_eq_true]
      exact List.length_take_le 1
        (callLLM oracle request.settings.enabled_topics)

/-- C3: when the enabled set is non-empty, the keyword fallback runs if and
only if the classifier result is empty; a non-empty classifier result is
never supplemented by the fallback, and an empty one makes `detect` return
the keyword matcher's result verbatim. -/
theorem fallback_iff_classifier_empty (oracle : LLMOutcome)
    (request : DetectionRequest) (fast : Bool)
    (h : request.settings.enabled_topics ≠ []) :
    ((detectTrace oracle request fast).kwCalled = true ↔
      callLLM oracle request.settings.enabled_topics = []) ∧
    (callLLM oracle request.settings.enabled_topics = [] →
      detect oracle request fast =
        keywordMatch request.prompt request.settings.enabled_topics fast) ∧
    (callLLM oracle request.settings.enabled_topics ≠ [] →
      (detectTrace oracle request fast).kwCalled = false) := by
  have he : request.settings.enabled_topics.isEmpty = false := by
    simpa [List.isEmpty_iff] using h
  by_cases hl : callLLM oracle request.settings.enabled_topics = []
  · simp [detect, detectTrace, he, hl]
  · have hl2 :
        (callLLM oracle request.settings.enabled_topics).isEmpty = false := by
      simpa [List.isEmpty_iff] using hl
    simp [detect, detectTrace, he, hl2, hl]

/-- Concrete instance of the C3 theorem: all topics enabled, classifier
call failing, so the fallback path decides the result. -/
theorem fallback_iff_classifier_empty_witness :
    ((⟨"law", {}⟩ : DetectionRequest).settings.enabled_topics ≠ []) ∧
    (((detectTrace LLMOutcome.failure ⟨"law", {}⟩ false).kwCalled = true ↔
      callLLM LLMOutcome.failure
        (⟨"law", {}⟩ : DetectionRequest).settings.enabled_topics = []) ∧
    (callLLM LLMOutcome.failure
        (⟨"law", {}⟩ : DetectionRequest).settings.enabled_topics = [] →
      detect LLMOutcome.failure ⟨"law", {}⟩ false =
        keywordMatch (⟨"law", {}⟩ : DetectionRequest).prompt
          (⟨"law", {}⟩ : DetectionRequest).settings.enabled_topics false) ∧
    (callLLM LLMOutcome.failure
        (⟨"law", {}⟩ : DetectionRequest).settings.enabled_topics ≠ [] →
      (detectTrace LLMOutcome.failure ⟨"law", {}⟩ false).kwCalled = false)) :=
  ⟨by decide,
    fallback_iff_classifier_empty LLMOutcome.failure ⟨"law", {}⟩ false
      (by decide)⟩

/-- C4: when the remote chat-completion call fails with any exception, the
classifier returns an empty list; being a total function of the outcome, it
raises nothing to the caller. -/
theorem classifier_remote_failure_returns_empty (enabled : List String) :
    callLLM LLMOutcome.failure enabled = [] := rfl

/-- C5 fails on the code: a `detected_topics` value that is a JSON object
(a non-list type) whose key names an enabled topic makes the classifier
return that topic, not the empty list — the code iterates the dict's keys
instead of rejecting the non-list value. -/
theorem classifier_nonlist_field_counterexample :
    callLLM (LLMOutcome.content (some (Json.obj
        [("detected_topics", Json.obj [("health", Json.bool true)])])))
      ["health", "finance", "legal", "hr"] = ["health"] ∧
    ("health" :: ([] : List String)) ≠ [] :=
  ⟨by decide, by decide⟩

theorem parseReply_some (payload : Json) (enabled : List String) :
    parseReply (some payload) enabled =
      match pyGetDetectedTopics payload with
      | none => []
      | some field =>
          match pyIter field with
          | none => []
          | some items => filterTopics items enabled := rfl

theorem parseReply_field_none {payload : Json} {enabled : List String}
    (h : pyGetDetectedTopics payload = none) :
    parseReply (some payload) enabled = [] := by
  rw [parseReply_some, h]

theorem parseReply_eq_of_get {payload field : Json} {enabled : List String}
    (hg : pyGetDetectedTopics payload = some field) :
    parseReply (some payload) enabled =
      match pyIter field with
      | none => []
      | some items => filterTopics items enabled := by
  rw [parseReply_some, hg]

theorem parseReply_iter_none {payload field : Json} {enabled : List String}
    (hg : pyGetDetectedTopics payload = some field)
    (hi : pyIter field = none) :
    parseReply (some payload) enabled = [] := by
  rw [parseReply_eq_of_get hg, hi]

/-- C5 amended: if the reply is not valid JSON, or the parsed value is not
an object, or it lacks a `detected_topics` key, or that key holds a number,
boolean or null, the classifier returns exactly the empty list and never
raises; a list, object or string under the key is instead iterated
(elements, keys, characters) and filtered against the enabled set, so an
object whose keys name enabled topics yields those topics. -/
theorem classifier_malformed_reply_empty (parsed : Option Json)
    (enabled : List String) (h : malformedReply parsed = true) :
    callLLM (LLMOutcome.content parsed) enabled = [] := by
  cases parsed with
  | none => rfl
  | some v =>
      cases v with
      | null => rfl
      | bool b => rfl
      | num n => rfl
      | str s => rfl
      | arr xs => rfl
      | obj kvs =>
          simp only [malformedReply] at h
          show parseReply (some (Json.obj kvs)) enabled = []
          cases hL : kvs.foldl
              (fun acc kv =>
                if kv.1 = "detected_topics" then some kv.2 else acc)
              none with
          | none =>
              have hg : pyGetDetectedTopics (Json.obj kvs) =
                  some (Json.arr []) := by
                simp only [pyGetDetectedTopics]
                rw [hL]
                rfl
              rw [parseReply_eq_of_get hg]
              rfl
          | some f =>
              rw [hL] at h
              have hg : pyGetDetectedTopics (Json.obj kvs) = some f := by
                simp only [pyGetDetectedTopics]
                rw [hL]
                rfl
              cases f with
              | null => exact parseReply_iter_none hg rfl
              | bool b => exact parseReply_iter_none hg rfl
              | num n => exact parseReply_iter_none hg rfl
              | str s => exact Bool.noConfusion h
              | arr xs => exact Bool.noConfusion h
              | obj kvs2 => exact Bool.noConfusion h

/-- Concrete instance of the C5 amended theorem: a numeric
`detected_topics` value yields the empty list. -/
theorem classifier_malformed_reply_empty_witness :
    malformedReply (some (Json.obj [("detected_topics", Json.num 3)])) =
      true ∧
    callLLM (LLMOutcome.content (some (Json.obj
        [("detected_topics", Json.num 3)])))
      ["health", "finance", "legal", "hr"] = [] :=
  ⟨by decide,
    classifier_malformed_reply_empty
      (some (Json.obj [("detected_topics", Json.num 3)]))
      ["health", "finance", "legal", "hr"] (by decide)⟩

/-- C6: with every topic disabled, `detect` returns the empty list without
invoking the remote classifier or the keyword matcher, and the `/detect`
endpoint still appends an audit entry with empty `detected_topics`. -/
theorem all_topics_disabled_short_circuit (oracle : LLMOutcome)
    (prompt : String) (fast : Bool) (store : AuditLogStore) (now : Nat) :
    DetectionSettings.enabled_topics ⟨false, false, false, false⟩ = [] ∧
    detectTrace oracle ⟨prompt, ⟨false, false, false, false⟩⟩ fast =
      ⟨[], false, false⟩ ∧
    handleDetect oracle ⟨prompt, ⟨false, false, false, false⟩⟩ store now =
      (store.append ⟨now, "detect", prompt, []⟩, []) :=
  ⟨rfl, rfl, rfl⟩

theorem filter_mem_of_sublist {α : Type} [DecidableEq α] {l c : List α}
    (h : List.Sublist l c) (hn : c.Nodup) :
    c.filter (fun t => decide (t ∈ l)) = l := by
  induction h with
  | slnil => rfl
  | @cons l₁ l₂ a hsub ih =>
      rw [List.nodup_cons] at hn
      have ha : a ∉ l₁ := fun hal => hn.1 (hsub.subset hal)
      have hcond : ¬(decide (a ∈ l₁) = true) := by simp [ha]
      rw [List.filter_cons, if_neg hcond]
      exact ih hn.2
  | @cons₂ l₁ l₂ a hsub ih =>
      rw [List.nodup_cons] at hn
      have hcond : decide (a ∈ a :: l₁) = true := by simp
      rw [List.filter_cons, if_pos hcond]
      have hcongr : ∀ x ∈ l₂,
          (decide (x ∈ a :: l₁) : Bool) = decide (x ∈ l₁) := by
        intro x hx
        have hxa : x ≠ a := fun hxa => hn.1 (hxa ▸ hx)
        simp [List.mem_cons, hxa]
      rw [List.filter_congr hcongr, ih hn.2]

theorem keywordMatchGo_eq_specMatchGo (lowered : String) (fast : Bool)
    (l : List String) :
    keywordMatchGo lowered fast l = specMatchGo lowered fast l := by
  induction l with
  | nil => rfl
  | cons x xs ih =>
      unfold keywordMatchGo specMatchGo
      split
      · cases fast with
        | false => rw [if_neg Bool.false_ne_true, if_neg Bool.false_ne_true,
            ih]
        | true => rfl
      · exact ih

/-- C7: on every enabled-topic list (a subsequence of the fixed catalog
order health, finance, legal, hr, as produced by
`DetectionSettings.enabled_topics`), the keyword matcher coincides with the
reference algorithm of the spec, for every prompt and fast flag.  Both
sides are total Lean functions, so determinism and absence of side effects
are inherited from the embedding. -/
theorem keyword_match_eq_spec_algorithm (prompt : String)
    (enabled : List String) (fast : Bool) (h : List.Sublist enabled catalogTopics) :
    keywordMatch prompt enabled fast = specMatch prompt enabled fast := by
  unfold keywordMatch specMatch
  rw [filter_mem_of_sublist h (by decide), keywordMatchGo_eq_specMatchGo]

/-- Concrete instance of the C7 theorem: the enabled list
`["health", "legal"]` respects catalog order, and both matchers agree on a
prompt matching both topics in fast mode. -/
theorem keyword_match_eq_spec_algorithm_witness :
    (List.Sublist ["health", "legal"] catalogTopics) ∧
    keywordMatch "a doctor read the contract" ["health", "legal"] true =
      specMatch "a doctor read the contract" ["health", "legal"] true :=
  ⟨by decide,
    keyword_match_eq_spec_algorithm "a doctor read the contract"
      ["health", "legal"] true (by decide)⟩

theorem take_append_take {α : Type} (a b : List α) (n : Nat) :
    (a ++ b.take n).take n = (a ++ b).take n := by
  rw [List.take_append_eq_append_take, List.take_append_eq_append_take,
    List.take_take, Nat.min_eq_left (Nat.sub_le n a.length)]

theorem appendAll_entries (es : List AuditLogEntry) :
    ∀ (N : Nat) (acc : List AuditLogEntry), acc.length ≤ N →
      (AuditLogStore.appendAll ⟨N, acc⟩ es).entries =
        (es.reverse ++ acc).take N := by
  induction es with
  | nil =>
      intro N acc h
      simp [AuditLogStore.appendAll, List.take_of_length_le h]
  | cons e es ih =>
      intro N acc h
      show (AuditLogStore.appendAll ⟨N, (e :: acc).take N⟩ es).entries = _
      rw [ih N _ (List.length_take_le N (e :: acc))]
      rw [take_append_take, List.reverse_cons, List.append_assoc]
      rfl

/-- C8 (the class `AuditLogStore` is absent from src/, so this is proved of
the spec-modelled store): appending N+1 entries to an empty store of
capacity N retains exactly the last N of them, evicting the oldest, and
`list()` returns them most-recent first. -/
theorem bounded_store_eviction (N : Nat) (es : List AuditLogEntry)
    (h : es.length = N + 1) :
    (AuditLogStore.appendAll ⟨N, []⟩ es).listEntries =
      (es.drop 1).reverse ∧
    (AuditLogStore.appendAll ⟨N, []⟩ es).listEntries.length = N := by
  cases es with
  | nil => simp at h
  | cons e t =>
      have ht : t.length = N := by
        simpa using h
      have : (AuditLogStore.appendAll ⟨N, []⟩ (e :: t)).entries =
          ((e :: t).reverse ++ []).take N :=
        appendAll_entries (e :: t) N [] (Nat.zero_le N)
      rw [List.append_nil, List.reverse_cons] at this
      have htake : (t.reverse ++ [e]).take N = t.reverse := by
        apply List.take_left'
        simpa using ht
      constructor
      · show (AuditLogStore.appendAll ⟨N, []⟩ (e :: t)).entries = t.reverse
        rw [this, htake]
      · show (AuditLogStore.appendAll ⟨N, []⟩ (e :: t)).entries.length = N
        rw [this, htake]
        simpa using ht

/-- Concrete instance of the C8 theorem: three appends into a store of
capacity two retain the last two entries, most-recent first. -/
theorem bounded_store_eviction_witness :
    ([⟨1, "detect", "p1", []⟩, ⟨2, "detect", "p2", []⟩,
      ⟨3, "protect", "p3", ["hr"]⟩] : List AuditLogEntry).length = 2 + 1 ∧
    ((AuditLogStore.appendAll ⟨2, []⟩
        [⟨1, "detect", "p1", []⟩, ⟨2, "detect", "p2", []⟩,
         ⟨3, "protect", "p3", ["hr"]⟩]).listEntries =
      (([⟨1, "detect", "p1", []⟩, ⟨2, "detect", "p2", []⟩,
         ⟨3, "protect", "p3", ["hr"]⟩] : List AuditLogEntry).drop 1).reverse ∧
     (AuditLogStore.appendAll ⟨2, []⟩
        [⟨1, "detect", "p1", []⟩, ⟨2, "detect", "p2", []⟩,
         ⟨3, "protect", "p3", ["hr"]⟩]).listEntries.length = 2) :=
  ⟨by decide,
    bounded_store_eviction 2
      [⟨1, "detect", "p1", []⟩, ⟨2, "detect", "p2", []⟩,
       ⟨3, "protect", "p3", ["hr"]⟩] (by decide)⟩

theorem mem_insertDesc {x r : DbRow} {l : List DbRow} :
    x ∈ insertDesc r l ↔ x = r ∨ x ∈ l := by
  induction l with
  | nil => simp [insertDesc]
  | cons y ys ih =>
      unfold insertDesc
      split
      · rw [List.mem_cons, ih, List.mem_cons]
        tauto
      · rw [List.mem_cons, List.mem_cons]

theorem mem_sortDesc {x : DbRow} {rows : List DbRow} :
    x ∈ sortDesc rows ↔ x ∈ rows := by
  induction rows with
  | nil => simp [sortDesc]
  | cons r rs ih =>
      show x ∈ insertDesc r (sortDesc rs) ↔ _
      rw [mem_insertDesc, ih, List.mem_cons]

theorem pairwise_insertDesc {r : DbRow} {l : List DbRow}
    (h : l.Pairwise (fun a b => b.timestamp ≤ a.timestamp)) :
    (insertDesc r l).Pairwise (fun a b => b.timestamp ≤ a.timestamp) := by
  induction l with
  | nil => simp [insertDesc]
  | cons y ys ih =>
      rw [List.pairwise_cons] at h
      unfold insertDesc
      split
      next hle =>
        rw [List.pairwise_cons]
        constructor
        · intro z hz
          rcases mem_insertDesc.mp hz with hz | hz
          · exact hz ▸ hle
          · exact h.1 z hz
        · exact ih h.2
      next hgt =>
        rw [List.pairwise_cons]
        constructor
        · intro z hz
          rcases List.mem_cons.mp hz with hz | hz
          · exact hz ▸ Nat.le_of_not_le hgt
          · exact Nat.le_trans (h.1 z hz) (Nat.le_of_not_le hgt)
        · exact List.pairwise_cons.mpr h

theorem pairwise_sortDesc (rows : List DbRow) :
    (sortDesc rows).Pairwise (fun a b => b.timestamp ≤ a.timestamp) := by
  induction rows with
  | nil => simp [sortDesc]
  | cons r rs ih => exact pairwise_insertDesc ih

theorem length_insertDesc (r : DbRow) (l : List DbRow) :
    (insertDesc r l).length = l.length + 1 := by
  induction l with
  | nil => rfl
  | cons y ys ih =>
      unfold insertDesc
      split
      · simp [ih]
      · rfl

theorem length_sortDesc (rows : List DbRow) :
    (sortDesc rows).length = rows.length := by
  induction rows with
  | nil => rfl
  | cons r rs ih =>
      show (insertDesc r (sortDesc rs)).length = rs.length + 1
      rw [length_insertDesc, ih]

/-- C9 fails on the code at `limit = 0`: `AuditLogRepository.list` applies
`.limit(limit)` only when `limit` is truthy, so a supplied limit of 0 does
not cap the result — with one stored row, `list(limit=0)` returns one
entry, not at most zero. -/
theorem repository_list_limit_zero_counterexample :
    ¬ ((AuditLogRepository.listLogs [⟨7, 5, "detect", "p", ["hr"]⟩]
        (some 0)).length ≤ 0) := by decide

/-- C9 amended: `record(route, prompt, topics)` followed by `list()` yields
an entry whose route, prompt and detected_topics equal the recorded values
verbatim (only timestamp and id are server-assigned); `list` returns
entries ordered by timestamp descending for every limit, and is capped at
the limit whenever a non-zero limit is supplied. -/
theorem record_then_list_ordered_capped (db : List DbRow)
    (now rowId : Nat) (route prompt : String) (topics : List String)
    (k : Nat) (hk : k ≠ 0) :
    ((AuditLogRepository.record db now rowId route prompt topics).2.route =
        route ∧
     (AuditLogRepository.record db now rowId route prompt topics).2.prompt =
        prompt ∧
     (AuditLogRepository.record db now rowId route prompt
        topics).2.detected_topics = topics) ∧
    (∃ e, e ∈ AuditLogRepository.listLogs
        (AuditLogRepository.record db now rowId route prompt topics).1
        none ∧
      e.route = route ∧ e.prompt = prompt ∧ e.detected_topics = topics) ∧
    (∀ limit, (AuditLogRepository.listLogs
        (AuditLogRepository.record db now rowId route prompt topics).1
        limit).Pairwise (fun a b => b.timestamp ≤ a.timestamp)) ∧
    (AuditLogRepository.listLogs
        (AuditLogRepository.record db now rowId route prompt topics).1
        (some k)).length ≤ k := by
  refine ⟨⟨rfl, rfl, rfl⟩, ?_, ?_, ?_⟩
  · refine ⟨DbRow.toEntry ⟨rowId, now, route, prompt, topics⟩, ?_,
      rfl, rfl, rfl⟩
    show _ ∈ (sortDesc (db ++ [⟨rowId, now, route, prompt, topics⟩])).map
      DbRow.toEntry
    refine List.mem_map_of_mem DbRow.toEntry ?_
    rw [mem_sortDesc]
    exact List.mem_append_right db (List.mem_singleton.mpr rfl)
  · intro limit
    have hpw := pairwise_sortDesc
      (db ++ [⟨rowId, now, route, prompt, topics⟩])
    have base :
        ∀ rows : List DbRow,
          rows.Pairwise (fun a b => b.timestamp ≤ a.timestamp) →
          (rows.map DbRow.toEntry).Pairwise
            (fun a b => b.timestamp ≤ a.timestamp) := by
      intro rows hrows
      rw [List.pairwise_map]
      exact hrows
    cases limit with
    | none => exact base _ hpw
    | some m =>
        show ((if m ≠ 0 then _ else _ : List DbRow).map
          DbRow.toEntry).Pairwise _
        by_cases hm : m ≠ 0
        · rw [if_pos hm]
          exact base _ (List.Pairwise.take hpw)
        · rw [if_neg hm]
          exact base _ hpw
  · show ((if k ≠ 0 then (sortDesc _).take k else _).map
      DbRow.toEntry).length ≤ k
    rw [if_pos hk, List.length_map]
    exact List.length_take_le k _

/-- Concrete instance of the C9 amended theorem: one record into an empty
table, listed with limit 1. -/
theorem record_then_list_ordered_capped_witness :
    (1 ≠ 0) ∧
    (((AuditLogRepository.record [] 5 9 "detect" "hello" ["hr"]).2.route =
        "detect" ∧
      (AuditLogRepository.record [] 5 9 "detect" "hello" ["hr"]).2.prompt =
        "hello" ∧
      (AuditLogRepository.record [] 5 9 "detect" "hello"
        ["hr"]).2.detected_topics = ["hr"]) ∧
     (∃ e, e ∈ AuditLogRepository.listLogs
        (AuditLogRepository.record [] 5 9 "detect" "hello" ["hr"]).1 none ∧
       e.route = "detect" ∧ e.prompt = "hello" ∧
       e.detected_topics = ["hr"]) ∧
     (∀ limit, (AuditLogRepository.listLogs
        (AuditLogRepository.record [] 5 9 "detect" "hello" ["hr"]).1
        limit).Pairwise (fun a b => b.timestamp ≤ a.timestamp)) ∧
     (AuditLogRepository.listLogs
        (AuditLogRepository.record [] 5 9 "detect" "hello" ["hr"]).1
        (some 1)).length ≤ 1) :=
  ⟨by decide,
    record_then_list_ordered_capped [] 5 9 "detect" "hello" ["hr"] 1
      (by decide)⟩

/-- C10: `AuditLogRepository.list` called with `limit = 0` returns every
stored entry, identically to calling it with no limit, because the limit
is applied only when truthy. -/
theorem repository_list_limit_zero_returns_all (db : List DbRow) :
    AuditLogRepository.listLogs db (some 0) =
      AuditLogRepository.listLogs db none ∧
    (AuditLogRepository.listLogs db (some 0)).length = db.length := by
  constructor
  · rfl
  · show ((sortDesc db).map DbRow.toEntry).length = db.length
    rw [List.length_map, length_sortDesc]

end DetectionSvc
